import Mathlib

/-!
Verification of the transport-and-caching core of the `permission-sdk`
Python library (`src/permission_sdk/`).

The development shallowly embeds the relevant Python code:

* Python strings are Lean `String`s; Python's string comparison
  (lexicographic by Unicode code point) is modelled by `lexLe` / `pyLe`.
* Python floats (`retry_backoff`, `retry_multiplier`, timeouts) are
  modelled as exact rationals `ℚ`.
* JSON values (`dict[str, Any]` request/response bodies and cached
  values) are modelled by the inductive `Json`; JSON numbers are
  restricted to integers, which covers every value the SDK reads.
* `fnmatch.fnmatch`, used by the in-memory cache store's
  `delete_pattern`, is modelled by `globTokens` / `matchTok`
  (shell-glob semantics: `*`, `?`, `[...]` classes with ranges and
  negation, unmatched `[` literal).
* `hashlib.sha256(...).hexdigest()` is an external deterministic
  library primitive; definitions that use it take the hex-digest
  function as an explicit parameter `digest : String → String`.
* The error taxonomy (`exceptions.py`) is modelled by `SDKError`,
  keeping the structured fields (status codes, field names, retry-after,
  timeout); human-readable message strings are elided.
* Exception messages, logging calls and `asyncio.run` plumbing carry no
  decision logic and are not modelled.
-/

namespace PermSDK

/-! ### Python string order (code-point lexicographic), `transport.py` helpers -/

/-- Lexicographic `≤` on char lists by Unicode code point: Python's
string comparison used by `sorted(...)` in `permission_cache.py`. -/
def lexLe : List Char → List Char → Bool
  | [], _ => true
  | _ :: _, [] => false
  | a :: as, b :: bs =>
    if a.toNat < b.toNat then true
    else if b.toNat < a.toNat then false
    else lexLe as bs

/-- Python string `≤` lifted to Lean strings. -/
def pyLe (a b : String) : Prop := lexLe a.data b.data = true

instance : DecidableRel pyLe := fun a b => inferInstanceAs (Decidable (_ = true))

/-- Python `sorted(...)` on a list of strings (a stable sort by `pyLe`),
as used in `PermissionCacheManager._build_check_key` and `_hash_checks`. -/
def sortStrings (l : List String) : List String := l.insertionSort pyLe

/-- Containment of `needle` in `hay` as char lists (Python's
`needle in hay` substring test). -/
def listContains (hay needle : List Char) : Bool :=
  hay.tails.any fun t => needle.isPrefixOf t

/-- Python's `needle in hay` substring test on strings, used to classify
endpoints in `HTTPTransport._is_check_request` / `_is_grant_request` /
`_is_revoke_request` and in `_handle_check_request` /
`_invalidate_cache_for_mutation`. -/
def strContains (hay needle : String) : Bool := listContains hay.data needle.data

/-- Python `sep.join(parts)`. -/
def joinSep (sep : String) : List String → String
  | [] => ""
  | [x] => x
  | x :: xs => x ++ sep ++ joinSep sep xs

/-! ### JSON values -/

/-- JSON values: request/response bodies and cached values.  JSON
numbers are restricted to integers (all numeric fields the SDK reads are
integers). -/
inductive Json where
  | null : Json
  | bool (b : Bool) : Json
  | num (n : ℤ) : Json
  | str (s : String) : Json
  | arr (elems : List Json) : Json
  | obj (fields : List (String × Json)) : Json

/-- Decidable equality of JSON values (written by hand: the nested
lists prevent automatic derivation). -/
def Json.decEq : (a b : Json) → Decidable (a = b)
  | .null, .null => isTrue rfl
  | .bool a, .bool b =>
    if h : a = b then isTrue (by rw [h]) else isFalse (by intro hh; injection hh; contradiction)
  | .num a, .num b =>
    if h : a = b then isTrue (by rw [h]) else isFalse (by intro hh; injection hh; contradiction)
  | .str a, .str b =>
    if h : a = b then isTrue (by rw [h]) else isFalse (by intro hh; injection hh; contradiction)
  | .arr [], .arr [] => isTrue rfl
  | .arr [], .arr (_ :: _) => isFalse (by intro h; injection h with h1; injection h1)
  | .arr (_ :: _), .arr [] => isFalse (by intro h; injection h with h1; injection h1)
  | .arr (x :: xs), .arr (y :: ys) =>
    match Json.decEq x y, Json.decEq (.arr xs) (.arr ys) with
    | isTrue h1, isTrue h2 => isTrue (by cases h1; cases Json.arr.inj h2; rfl)
    | isFalse h1, _ => isFalse (by intro h; injection Json.arr.inj h with h3 h4; exact h1 h3)
    | _, isFalse h2 => isFalse (by
        intro h; injection Json.arr.inj h with h3 h4; exact h2 (by rw [h4]))
  | .obj [], .obj [] => isTrue rfl
  | .obj [], .obj (_ :: _) => isFalse (by intro h; injection h with h1; injection h1)
  | .obj (_ :: _), .obj [] => isFalse (by intro h; injection h with h1; injection h1)
  | .obj ((k, v) :: fs), .obj ((k', v') :: fs') =>
    match String.decEq k k', Json.decEq v v', Json.decEq (.obj fs) (.obj fs') with
    | isTrue hk, isTrue hv, isTrue hf =>
      isTrue (by cases hk; cases hv; cases Json.obj.inj hf; rfl)
    | isFalse hk, _, _ => isFalse (by
        intro h; injection Json.obj.inj h with h3 h4
        injection h3 with h5 h6; exact hk h5)
    | _, isFalse hv, _ => isFalse (by
        intro h; injection Json.obj.inj h with h3 h4
        injection h3 with h5 h6; exact hv h6)
    | _, _, isFalse hf => isFalse (by
        intro h; injection Json.obj.inj h with h3 h4; exact hf (by rw [h4]))
  | .null, .bool _ => isFalse (fun h => Json.noConfusion h)
  | .null, .num _ => isFalse (fun h => Json.noConfusion h)
  | .null, .str _ => isFalse (fun h => Json.noConfusion h)
  | .null, .arr _ => isFalse (fun h => Json.noConfusion h)
  | .null, .obj _ => isFalse (fun h => Json.noConfusion h)
  | .bool _, .null => isFalse (fun h => Json.noConfusion h)
  | .bool _, .num _ => isFalse (fun h => Json.noConfusion h)
  | .bool _, .str _ => isFalse (fun h => Json.noConfusion h)
  | .bool _, .arr _ => isFalse (fun h => Json.noConfusion h)
  | .bool _, .obj _ => isFalse (fun h => Json.noConfusion h)
  | .num _, .null => isFalse (fun h => Json.noConfusion h)
  | .num _, .bool _ => isFalse (fun h => Json.noConfusion h)
  | .num _, .str _ => isFalse (fun h => Json.noConfusion h)
  | .num _, .arr _ => isFalse (fun h => Json.noConfusion h)
  | .num _, .obj _ => isFalse (fun h => Json.noConfusion h)
  | .str _, .null => isFalse (fun h => Json.noConfusion h)
  | .str _, .bool _ => isFalse (fun h => Json.noConfusion h)
  | .str _, .num _ => isFalse (fun h => Json.noConfusion h)
  | .str _, .arr _ => isFalse (fun h => Json.noConfusion h)
  | .str _, .obj _ => isFalse (fun h => Json.noConfusion h)
  | .arr _, .null => isFalse (fun h => Json.noConfusion h)
  | .arr _, .bool _ => isFalse (fun h => Json.noConfusion h)
  | .arr _, .num _ => isFalse (fun h => Json.noConfusion h)
  | .arr _, .str _ => isFalse (fun h => Json.noConfusion h)
  | .arr _, .obj _ => isFalse (fun h => Json.noConfusion h)
  | .obj _, .null => isFalse (fun h => Json.noConfusion h)
  | .obj _, .bool _ => isFalse (fun h => Json.noConfusion h)
  | .obj _, .num _ => isFalse (fun h => Json.noConfusion h)
  | .obj _, .str _ => isFalse (fun h => Json.noConfusion h)
  | .obj _, .arr _ => isFalse (fun h => Json.noConfusion h)

instance : DecidableEq Json := Json.decEq

/-- Python truthiness of a JSON value (`bool(x)`), used by
`PermissionCacheManager.get_check_result`'s `bool(result)` coercion. -/
def jsonTruthy : Json → Bool
  | .null => false
  | .bool b => b
  | .num n => decide (n ≠ 0)
  | .str s => decide (s ≠ "")
  | .arr elems => !elems.isEmpty
  | .obj fields => !fields.isEmpty

/-- Python `d.get(k)` on a JSON object's field list (first binding wins,
mirroring dict key uniqueness). -/
def jsonGet (fields : List (String × Json)) (k : String) : Option Json :=
  (fields.find? fun f => f.1 = k).map (·.2)

/-- Python `d.get(k, default)`. -/
def jsonGetD (fields : List (String × Json)) (k : String) (d : Json) : Json :=
  (jsonGet fields k).getD d

/-! ### Shell-glob matching (`fnmatch.fnmatch`)

`InMemoryCacheService.delete_pattern` matches keys with
`fnmatch.fnmatch(key, pattern)` (on Linux this is `fnmatchcase`:
no case folding).  We compile the pattern into tokens and match; the
class-scanning follows `fnmatch.translate`: after `[`, an optional `!`,
then a `]` appearing first is literal content, then content runs to the
next `]`; an unclosed `[` is a literal character; `a-b` inside a class
is a code-point range (empty if reversed). -/

/-- One compiled glob pattern token. -/
inductive GlobTok where
  | star : GlobTok
  | any : GlobTok
  | lit (c : Char) : GlobTok
  | cls (neg : Bool) (items : List (Char × Option Char)) : GlobTok
deriving DecidableEq

/-- Scan for the closing `]` of a character class; returns the content
and the remainder (bounded, for termination of `globTokens`). -/
def findClose : (s : List Char) → Option (List Char × { rest : List Char // rest.length < s.length })
  | [] => none
  | ']' :: r => some ([], ⟨r, by simp⟩)
  | c :: r =>
    match findClose r with
    | none => none
    | some (co, ⟨rest, h⟩) => some (c :: co, ⟨rest, by simp only [List.length_cons]; omega⟩)

/-- Scan a class body (the part after `[`): optional negation, content,
remainder after the closing `]`. -/
def scanClass : (s : List Char) → Option (Bool × List Char × { rest : List Char // rest.length ≤ s.length })
  | '!' :: ']' :: r =>
    (findClose r).map fun p => (true, ']' :: p.1, ⟨p.2.1, by have := p.2.2; simp only [List.length_cons]; omega⟩)
  | '!' :: r =>
    (findClose r).map fun p => (true, p.1, ⟨p.2.1, by have := p.2.2; simp only [List.length_cons]; omega⟩)
  | ']' :: r =>
    (findClose r).map fun p => (false, ']' :: p.1, ⟨p.2.1, by have := p.2.2; simp only [List.length_cons]; omega⟩)
  | r =>
    (findClose r).map fun p => (false, p.1, ⟨p.2.1, by have := p.2.2; omega⟩)

/-- Parse class content into items: `a-b` is a range, anything else a
single character (leading or trailing `-` is literal). -/
def parseItems : List Char → List (Char × Option Char)
  | [] => []
  | a :: '-' :: b :: rest => (a, some b) :: parseItems rest
  | a :: rest => (a, none) :: parseItems rest

/-- Does a character match one class item (code-point range semantics)? -/
def itemMatch (c : Char) : Char × Option Char → Bool
  | (a, none) => a = c
  | (lo, some hi) => lo.toNat ≤ c.toNat && c.toNat ≤ hi.toNat

/-- Compile a glob pattern into tokens (`fnmatch.translate`'s pattern
walk; consecutive `*` collapse is omitted as it does not change the
matching relation).  A class consumes its whole `[...]` syntax, so the
recursion is driven by a fuel argument that `globTokens` instantiates
with the pattern length — always enough, since every step consumes at
least one character. -/
def globTokensF : ℕ → List Char → List GlobTok
  | _, [] => []
  | 0, _ :: _ => []
  | fuel + 1, c :: r =>
    if c = '*' then .star :: globTokensF fuel r
    else if c = '?' then .any :: globTokensF fuel r
    else if c = '[' then
      match scanClass r with
      | some (neg, content, rest) => .cls neg (parseItems content) :: globTokensF fuel rest.1
      | none => .lit '[' :: globTokensF fuel r
    else .lit c :: globTokensF fuel r

/-- Compile a glob pattern into tokens. -/
def globTokens (p : List Char) : List GlobTok := globTokensF p.length p

/-- Match a token list against a string, anchored at both ends: `?` and
a class match one character, a literal matches itself, and `*` matches
when the remaining tokens match some suffix of the text (the `.*`
semantics of the regex `fnmatch.translate` produces). -/
def matchTok : (toks : List GlobTok) → (s : List Char) → Bool
  | [], s => s.isEmpty
  | .star :: p, s => s.tails.any fun t => matchTok p t
  | .any :: p, s =>
    (match s with
     | [] => false
     | _ :: s' => matchTok p s')
  | .lit c :: p, s =>
    (match s with
     | [] => false
     | c' :: s' => if c = c' then matchTok p s' else false)
  | .cls neg items :: p, s =>
    (match s with
     | [] => false
     | c' :: s' => if (items.any (itemMatch c')) ≠ neg then matchTok p s' else false)

/-- Model of `fnmatch.fnmatch(name, pat)` (POSIX: no case normalisation). -/
def fnmatchB (name pat : String) : Bool := matchTok (globTokens pat.data) name.data

/-- The token one pattern character outside a class compiles to
(`globTokens` agrees with mapping this over any class-free segment). -/
def charTok (c : Char) : GlobTok :=
  if c = '*' then .star else if c = '?' then .any else .lit c

/-! ### In-memory cache store (`cache/memory.py`, `InMemoryCacheService`)

The transport's cache claims are settled against the in-memory store
(the backend the SDK falls back to whenever the distributed backend is
unavailable, and the one whose `delete_pattern` uses `fnmatch`). -/

/-- One cache entry: the stored value and the optional absolute expiry
instant, mirroring `self._cache[key] = (value, expires_at)`;
`time.time()` instants are modelled as rationals. -/
structure CacheEntry where
  value : Json
  expires_at : Option ℚ
deriving DecidableEq

/-- The store's state: an association list standing for the Python dict
(`cacheSet` keeps keys unique). -/
abbrev CacheState := List (String × CacheEntry)

/-- Model of `InMemoryCacheService.get`: miss on absent key; an expired entry is
removed and reported as a miss.  Returns the value (if any) and the
possibly-updated store. -/
def cacheGet (st : CacheState) (now : ℚ) (key : String) : Option Json × CacheState :=
  match st.find? fun p => p.1 = key with
  | none => (none, st)
  | some (_, entry) =>
    match entry.expires_at with
    | some e =>
      if now > e then (none, st.filter fun p => !(decide (p.1 = key)))
      else (some entry.value, st)
    | none => (some entry.value, st)

/-- Model of `InMemoryCacheService.set`: upsert with `expires_at = time.time() + ttl`
when a ttl is given (the Python method always returns `True`). -/
def cacheSet (st : CacheState) (now : ℚ) (key : String) (value : Json) (ttl : Option ℚ) : CacheState :=
  (key, ⟨value, ttl.map fun t => now + t⟩) :: st.filter fun p => !(decide (p.1 = key))

/-- Model of `InMemoryCacheService.delete_pattern`: collect the keys matching the
glob, delete them, return the count and the new store. -/
def cacheDeletePattern (st : CacheState) (pat : String) : ℕ × CacheState :=
  ((st.filter fun p => fnmatchB p.1 pat).length,
    st.filter fun p => !fnmatchB p.1 pat)

/-! ### Permission cache manager (`cache/permission_cache.py`)

`pfx` is the manager's key prefix attribute (`self.prefix`,
`config.cache_prefix` at the transport). -/

/-- Python `x or "null"` on an optional string (an empty string is falsy
and also maps to the sentinel). -/
def orNull : Option String → String
  | none => "null"
  | some s => if s = "" then "null" else s

/-- Model of `PermissionCacheManager._build_check_key`: subjects sorted and
joined with `|`, then all segments joined with `:`. -/
def buildCheckKey (pfx : String) (subjects : List String) (scope action : String)
    (tenant_id object_id : Option String) : String :=
  joinSep ":" [pfx, "check", joinSep "|" (sortStrings subjects), scope, action,
    orNull tenant_id, orNull object_id]

/-- Model of `PermissionCacheManager._build_subject_pattern`:
the glob `"<prefix>:check:*<subject>*"`. -/
def buildSubjectPattern (pfx subject : String) : String :=
  pfx ++ ":check:*" ++ subject ++ "*"

/-- Model of `PermissionCacheManager.get_check_result`: build the key, `get`,
return `None` untouched and coerce anything else with `bool(...)`
(a stored JSON `null` is indistinguishable from a miss). -/
def getCheckResult (pfx : String) (st : CacheState) (now : ℚ) (subjects : List String)
    (scope action : String) (tenant_id object_id : Option String) :
    Option Bool × CacheState :=
  let key := buildCheckKey pfx subjects scope action tenant_id object_id
  match cacheGet st now key with
  | (none, st') => (none, st')
  | (some .null, st') => (none, st')
  | (some v, st') => (some (jsonTruthy v), st')

/-- Model of `PermissionCacheManager.set_check_result` (the stored value is
whatever the caller passed for `result`). -/
def setCheckResult (pfx : String) (st : CacheState) (now : ℚ) (subjects : List String)
    (scope action : String) (result : Json) (tenant_id object_id : Option String)
    (ttl : Option ℚ) : CacheState :=
  cacheSet st now (buildCheckKey pfx subjects scope action tenant_id object_id) result ttl

/-- Model of `PermissionCacheManager.invalidate_subject`: delete everything
matching the subject's glob; returns the count and the new store. -/
def invalidateSubject (pfx subject : String) (st : CacheState) : ℕ × CacheState :=
  cacheDeletePattern st (buildSubjectPattern pfx subject)

/-- Model of `PermissionCacheManager.invalidate_subjects`: invalidate each
subject in turn, totalling the counts. -/
def invalidateSubjects (pfx : String) (subjects : List String) (st : CacheState) :
    ℕ × CacheState :=
  subjects.foldl
    (fun acc s =>
      let r := invalidateSubject pfx s acc.2
      (acc.1 + r.1, r.2))
    (0, st)

/-! ### Batch check hashing (`PermissionCacheManager._hash_checks`)

`_hash_checks` normalizes each check dict (sorted subject tuple plus the
five scalar fields), sorts the normalized list by its
`json.dumps(·, sort_keys=True)` string, dumps the sorted list the same
way, and hashes with `hashlib.sha256(...).hexdigest()[:16]`.  The
SHA-256 hex digest is an external deterministic primitive, passed in as
`digest : String → String`. -/

/-- One check-request dictionary, with the keys `_hash_checks` reads
(each read with `.get`, absent keys yielding `None` / `[]`). -/
structure CheckDict where
  subjects : List String := []
  scope : Option String := none
  action : Option String := none
  tenant_id : Option String := none
  object_id : Option String := none
  check_id : Option String := none
deriving DecidableEq

/-- Two check dictionaries that are the same check up to a reordering
of the subject list (the per-element relation in claim C7's
"reordering of the subject list inside each check"). -/
def checkReorder (a b : CheckDict) : Prop :=
  a.subjects.Perm b.subjects ∧ a.scope = b.scope ∧ a.action = b.action ∧
    a.tenant_id = b.tenant_id ∧ a.object_id = b.object_id ∧ a.check_id = b.check_id

/-- A normalized check: subjects sorted, scalar fields copied. -/
structure NormCheck where
  subjects : List String
  scope : Option String
  action : Option String
  tenant_id : Option String
  object_id : Option String
  check_id : Option String
deriving DecidableEq

/-- The `normalized_check` dict built for each check. -/
def normalizeCheck (c : CheckDict) : NormCheck :=
  ⟨sortStrings c.subjects, c.scope, c.action, c.tenant_id, c.object_id, c.check_id⟩

/-- Lowercase hex digit. -/
def hexDigit (k : ℕ) : Char :=
  if k < 10 then Char.ofNat ('0'.toNat + k) else Char.ofNat ('a'.toNat + (k - 10))

/-- Four lowercase hex digits (for `\uXXXX` escapes). -/
def hex4 (n : ℕ) : String :=
  String.mk [hexDigit (n / 4096 % 16), hexDigit (n / 256 % 16), hexDigit (n / 16 % 16),
    hexDigit (n % 16)]

/-- Model of `json.dumps` escaping of one character (`ensure_ascii=True`
default: short escapes, `\uXXXX` for other non-printable/non-ASCII,
surrogate pairs above the BMP). -/
def escChar (c : Char) : String :=
  if c = '"' then "\\\""
  else if c = '\\' then "\\\\"
  else if c = '\n' then "\\n"
  else if c = '\t' then "\\t"
  else if c = '\r' then "\\r"
  else if c.toNat = 8 then "\\b"
  else if c.toNat = 12 then "\\f"
  else if c.toNat < 32 || c.toNat > 126 then
    if c.toNat < 65536 then "\\u" ++ hex4 c.toNat
    else
      "\\u" ++ hex4 (55296 + (c.toNat - 65536) / 1024) ++
        "\\u" ++ hex4 (56320 + (c.toNat - 65536) % 1024)
  else String.mk [c]

/-- Model of `json.dumps` of a string value. -/
def pyJsonStr (s : String) : String :=
  "\"" ++ String.join (s.data.map escChar) ++ "\""

/-- Model of `json.dumps` of an optional string (`None` dumps as `null`). -/
def dumpOptStr : Option String → String
  | none => "null"
  | some s => pyJsonStr s

/-- Model of `json.dumps(normalized_check, sort_keys=True)` with the default
`", "` / `": "` separators; the keys in sorted order are `action`,
`check_id`, `object_id`, `scope`, `subjects`, `tenant_id`, and the
subject tuple dumps as a JSON array. -/
def dumpNorm (n : NormCheck) : String :=
  "\x7b\"action\": " ++ dumpOptStr n.action ++
    ", \"check_id\": " ++ dumpOptStr n.check_id ++
    ", \"object_id\": " ++ dumpOptStr n.object_id ++
    ", \"scope\": " ++ dumpOptStr n.scope ++
    ", \"subjects\": [" ++ joinSep ", " (n.subjects.map pyJsonStr) ++ "]" ++
    ", \"tenant_id\": " ++ dumpOptStr n.tenant_id ++ "\x7d"

/-- The sort key order `normalized.sort(key=lambda x: json.dumps(x, sort_keys=True))`. -/
def normLe (a b : NormCheck) : Prop := pyLe (dumpNorm a) (dumpNorm b)

instance : DecidableRel normLe := fun a b => inferInstanceAs (Decidable (lexLe _ _ = true))

/-- Python's stable `list.sort` under the dump-string key. -/
def sortNorm (l : List NormCheck) : List NormCheck := l.insertionSort normLe

/-- Model of `content = json.dumps(normalized, sort_keys=True)` after the sort
(a JSON array of the normalized dicts). -/
def hashContent (checks : List CheckDict) : String :=
  "[" ++ joinSep ", " ((sortNorm (checks.map normalizeCheck)).map dumpNorm) ++ "]"

/-- Model of `PermissionCacheManager._hash_checks`:
`hashlib.sha256(content.encode()).hexdigest()[:16]`. -/
def hashChecks (digest : String → String) (checks : List CheckDict) : String :=
  String.mk ((digest (hashContent checks)).data.take 16)

/-- Model of `PermissionCacheManager._build_check_many_key`. -/
def buildCheckManyKey (pfx checks_hash : String) : String :=
  pfx ++ ":check_many:" ++ checks_hash

/-- Model of `PermissionCacheManager.get_check_many_result`: keyed by the batch
hash; returns the raw cached value. -/
def getCheckManyResult (digest : String → String) (pfx : String) (st : CacheState)
    (now : ℚ) (checks : List CheckDict) : Option Json × CacheState :=
  cacheGet st now (buildCheckManyKey pfx (hashChecks digest checks))

/-- Model of `PermissionCacheManager.set_check_many_result`. -/
def setCheckManyResult (digest : String → String) (pfx : String) (st : CacheState)
    (now : ℚ) (checks : List CheckDict) (results : Json) (ttl : Option ℚ) : CacheState :=
  cacheSet st now (buildCheckManyKey pfx (hashChecks digest checks)) results ttl

/-! ### Configuration (`config.py`, `SDKConfig` / `_validate`)

Field names and defaults mirror the dataclass; `cache_pfx` stands for
the source's cache key prefix field (`cache_prefix`), renamed here
only.  Python ints are `ℤ`, floats are `ℚ`. -/

/-- The SDK configuration dataclass. -/
structure SDKConfig where
  base_url : String
  api_key : String
  timeout : ℤ := 30
  max_retries : ℤ := 3
  retry_backoff : ℚ := (1 : ℚ) / 2
  retry_multiplier : ℚ := 2
  retry_on_status : List ℤ := [429, 500, 502, 503, 504]
  pool_maxsize : ℤ := 10
  pool_connections : ℤ := 10
  validate_identifiers : Bool := true
  cache_enabled : Bool := false
  cache_type : String := "redis"
  cache_redis_url : Option String := none
  cache_ttl : ℤ := 300
  cache_pfx : String := "perm_sdk"
deriving DecidableEq

/-- Python `s.startswith(pre)`. -/
def strStartsWith (s pre : String) : Bool := pre.data.isPrefixOf s.data

/-- Python `s.rstrip("/")`. -/
def rstripSlashes (s : String) : String :=
  String.mk (s.data.reverse.dropWhile fun c => c = '/').reverse

/-- The checks `SDKConfig._validate` performs after the base-url strip,
in source order; `none` stands for a raised `ConfigurationError`
(messages elided). -/
def validateAfterStrip (c : SDKConfig) : Option SDKConfig :=
  if c.api_key = "" then none
  else if c.timeout ≤ 0 then none
  else if c.max_retries < 0 then none
  else if c.retry_backoff < 0 then none
  else if c.retry_multiplier < 1 then none
  else if c.pool_maxsize ≤ 0 then none
  else if c.pool_connections ≤ 0 then none
  else if c.cache_enabled &&
      !(c.cache_type = "redis" || c.cache_type = "memory" || c.cache_type = "none") then
    none
  else if c.cache_enabled && c.cache_ttl ≤ 0 then none
  else if c.cache_enabled && c.cache_pfx = "" then none
  else some c

/-- Model of `SDKConfig._validate`, run by `__post_init__`: base-url checks,
then the trailing-slash strip (an in-place mutation in the source),
then the remaining checks; `some c` is the accepted configuration. -/
def validateConfig (c : SDKConfig) : Option SDKConfig :=
  if c.base_url = "" then none
  else if !(strStartsWith c.base_url "http://" || strStartsWith c.base_url "https://") then
    none
  else validateAfterStrip { c with base_url := rstripSlashes c.base_url }

/-- Model of `HTTPTransport._wait_for_retry` / `AsyncHTTPTransport._wait_for_retry`:
the sleep duration `retry_backoff * retry_multiplier ** attempt`. -/
def waitTime (c : SDKConfig) (attempt : ℕ) : ℚ :=
  c.retry_backoff * c.retry_multiplier ^ attempt

/-! ### Error taxonomy (`exceptions.py`) and response mapping
(`HTTPTransport._handle_response`; `AsyncHTTPTransport._handle_response`
is textually identical) -/

/-- An HTTP response as the transport reads it: status code, parsed JSON
body (`none` when `response.json()` raises), raw text, and the
`Retry-After` header already parsed to an integer (`none` for an
absent or empty header; a non-numeric header would raise an uncaught
`ValueError`, outside the model). -/
structure HttpResponse where
  status : ℤ
  body : Option Json := none
  text : String := ""
  retry_after : Option ℤ := none
deriving DecidableEq

/-- The SDK's error taxonomy with its structured fields
(message strings elided; `field` and `resource_type` hold whatever JSON
value the error body carried). -/
inductive SDKError where
  | authentication (status_code : ℤ) : SDKError
  | validationErr (field : Option Json) (status_code : ℤ) : SDKError
  | resourceNotFound (resource_type : Option Json) (status_code : ℤ) : SDKError
  | conflict (response : Option Json) (status_code : ℤ) : SDKError
  | rateLimit (retry_after : Option ℤ) (status_code : ℤ) : SDKError
  | server (status_code : ℤ) : SDKError
  | network : SDKError
  | timeoutError (timeout : ℚ) : SDKError
deriving DecidableEq

/-- Model of `HTTPTransport._handle_response`: `none` for 2xx, otherwise the
mapped error.  `error_type` / `field` are read from the body only when
it parsed to a dict (otherwise the `except` fallback leaves them
`None`).  Note the source has no 409 branch: 409 falls through to the
final `ServerError` bucket. -/
def handleResponse (r : HttpResponse) : Option SDKError :=
  if 200 ≤ r.status ∧ r.status < 300 then none
  else
    let error_type : Option Json :=
      match r.body with
      | some (.obj fs) => jsonGet fs "error_type"
      | _ => none
    let error_field : Option Json :=
      match r.body with
      | some (.obj fs) => jsonGet fs "field"
      | _ => none
    if r.status = 401 then some (.authentication r.status)
    else if r.status = 400 then some (.validationErr error_field r.status)
    else if r.status = 404 then some (.resourceNotFound error_type r.status)
    else if r.status = 429 then some (.rateLimit r.retry_after r.status)
    else if 500 ≤ r.status then some (.server r.status)
    else some (.server r.status)

/-! ### The retry loop (`HTTPTransport._do_request`,
`AsyncHTTPTransport.request` lines 127-174)

Each attempt's interaction with the network is an oracle
`script : ℕ → AttemptOut`: attempt `i` either raises
`httpx.TimeoutException`, raises `httpx.ConnectError`/`httpx.NetworkError`,
or returns a response.

`httpx.Client.request` never raises `httpx.HTTPStatusError` (only
`Response.raise_for_status` does, and the transport never calls it), and
`_handle_response` raises SDK exceptions that none of the `except`
clauses catch — so the `except httpx.HTTPStatusError` retry-on-status
branch of the source is unreachable and a non-2xx response always
escapes on the attempt it arrives, whatever `retry_on_status` holds. -/

/-- The outcome of one network attempt. -/
inductive AttemptOut where
  | timeout : AttemptOut
  | netError : AttemptOut
  | resp (r : HttpResponse) : AttemptOut
deriving DecidableEq

/-- What a transport call produces: parsed JSON on success, a mapped
SDK error, or a raw Python exception escaping the transport
(`json.JSONDecodeError` on an unparseable 2xx body). -/
inductive Outcome where
  | ok (data : Json) : Outcome
  | err (e : SDKError) : Outcome
  | pyError : Outcome
deriving DecidableEq

/-- Result of the retry loop: outcome, number of HTTP attempts
performed, and the backoff sleeps taken. -/
structure DoResult where
  outcome : Outcome
  calls : ℕ
  waits : List ℚ
deriving DecidableEq

/-- Processing of a response that arrived: `_handle_response`, then the
204 short-circuit, then `response.json()`. -/
def respOutcome (r : HttpResponse) : Outcome :=
  match handleResponse r with
  | some e => .err e
  | none =>
    if r.status = 204 then .ok (.obj [])
    else
      match r.body with
      | some j => .ok j
      | none => .pyError

/-- The body of `for attempt in range(max_retries + 1)`: `remaining`
counts the iterations left after this one, so the last iteration has
`remaining = 0` (`attempt == max_retries`). -/
def doRequestAux (c : SDKConfig) (script : ℕ → AttemptOut) :
    (attempt : ℕ) → (remaining : ℕ) → DoResult
  | attempt, 0 =>
    match script attempt with
    | .timeout => ⟨.err (.timeoutError (c.timeout : ℚ)), 1, []⟩
    | .netError => ⟨.err .network, 1, []⟩
    | .resp r => ⟨respOutcome r, 1, []⟩
  | attempt, remaining + 1 =>
    match script attempt with
    | .timeout =>
      let d := doRequestAux c script (attempt + 1) remaining
      ⟨d.outcome, d.calls + 1, waitTime c attempt :: d.waits⟩
    | .netError =>
      let d := doRequestAux c script (attempt + 1) remaining
      ⟨d.outcome, d.calls + 1, waitTime c attempt :: d.waits⟩
    | .resp r => ⟨respOutcome r, 1, []⟩

/-- Model of `HTTPTransport._do_request`: run the loop; if the range is empty
(negative `max_retries`, rejected by validation but expressible), the
trailing `raise ServerError("Maximum retries exceeded")` fires. -/
def doRequest (c : SDKConfig) (script : ℕ → AttemptOut) : DoResult :=
  if (c.max_retries + 1).toNat = 0 then ⟨.err (.server 500), 0, []⟩
  else doRequestAux c script 0 ((c.max_retries + 1).toNat - 1)

/-- Model of `AsyncHTTPTransport.request`'s loop body — the source duplicates the
sync loop verbatim (`async_transport.py` lines 127-174), so this
definition mirrors that duplicate. -/
def asyncRequestAux (c : SDKConfig) (script : ℕ → AttemptOut) :
    (attempt : ℕ) → (remaining : ℕ) → DoResult
  | attempt, 0 =>
    match script attempt with
    | .timeout => ⟨.err (.timeoutError (c.timeout : ℚ)), 1, []⟩
    | .netError => ⟨.err .network, 1, []⟩
    | .resp r => ⟨respOutcome r, 1, []⟩
  | attempt, remaining + 1 =>
    match script attempt with
    | .timeout =>
      let d := asyncRequestAux c script (attempt + 1) remaining
      ⟨d.outcome, d.calls + 1, waitTime c attempt :: d.waits⟩
    | .netError =>
      let d := asyncRequestAux c script (attempt + 1) remaining
      ⟨d.outcome, d.calls + 1, waitTime c attempt :: d.waits⟩
    | .resp r => ⟨respOutcome r, 1, []⟩

/-- Model of `AsyncHTTPTransport.request`: the whole async transport call — it
has no cache manager, no routing, and no invalidation; it is only the
retry loop. -/
def asyncRequest (c : SDKConfig) (script : ℕ → AttemptOut) : DoResult :=
  if (c.max_retries + 1).toNat = 0 then ⟨.err (.server 500), 0, []⟩
  else asyncRequestAux c script 0 ((c.max_retries + 1).toNat - 1)

/-! ### The sync transport's routing and cache protocol (`transport.py`) -/

/-- One element of a `grants` / `revocations` array, with the only key
the invalidation code reads (`g.get("subject")`). -/
structure MutItem where
  subject : Option String := none
deriving DecidableEq

/-- A request body (`json` dict), with every key the transport itself
reads.  Check bodies built by the client always carry string `scope` /
`action` (a body missing them would raise `TypeError` inside key
building), so those two are modelled as strings. -/
structure RequestBody where
  subjects : List String := []
  scope : String := ""
  action : String := ""
  tenant_id : Option String := none
  object_id : Option String := none
  subject : Option String := none
  grants : List MutItem := []
  revocations : List MutItem := []
deriving DecidableEq

/-- Model of `HTTPTransport._is_check_request`. -/
def isCheckRequest (method endpoint : String) : Bool :=
  method = "POST" &&
    (strContains endpoint "/permissions/check" ||
      strContains endpoint "/permissions/check-many")

/-- Model of `HTTPTransport._is_grant_request`. -/
def isGrantRequest (method endpoint : String) : Bool :=
  method = "POST" &&
    (strContains endpoint "/permissions/grant" ||
      strContains endpoint "/permissions/grant-many")

/-- Model of `HTTPTransport._is_revoke_request`. -/
def isRevokeRequest (method endpoint : String) : Bool :=
  method = "POST" &&
    (strContains endpoint "/permissions/revoke" ||
      strContains endpoint "/permissions/revoke-many")

/-- The subjects `_invalidate_cache_for_mutation` extracts from the
body: batch endpoints collect the truthy subjects of their items into a
set (iteration order of a Python set is unspecified; the final cache
state does not depend on it because pattern deletions commute, and we
deduplicate keeping last occurrences), single endpoints read the truthy
`subject` key. -/
def mutationSubjects (endpoint : String) (b : RequestBody) : List String :=
  if strContains endpoint "/grant-many" then
    ((b.grants.filterMap fun g => g.subject).filter fun s => s ≠ "").dedup
  else if strContains endpoint "/revoke-many" then
    ((b.revocations.filterMap fun g => g.subject).filter fun s => s ≠ "").dedup
  else if strContains endpoint "/grant" || strContains endpoint "/revoke" then
    match b.subject with
    | some s => if s = "" then [] else [s]
    | none => []
  else []

/-- Claim C1's "names `x` among its subjects": the mutation's JSON body
carries `x` as a subject, read the way
`_invalidate_cache_for_mutation` routes bodies (batch endpoints list
subjects inside `grants` / `revocations` items, single endpoints in the
`subject` key). -/
def bodyNamesSubject (endpoint : String) (b : RequestBody) (x : String) : Prop :=
  if strContains endpoint "/grant-many" then
    x ∈ b.grants.filterMap fun g => g.subject
  else if strContains endpoint "/revoke-many" then
    x ∈ b.revocations.filterMap fun g => g.subject
  else b.subject = some x

/-- Model of `HTTPTransport._invalidate_cache_for_mutation` (the single-subject
branch calls `invalidate_subject` directly; folding the one-element list
through `invalidate_subjects` has the identical effect on the store). -/
def invalidateCacheForMutation (pfx endpoint : String) (b : RequestBody)
    (st : CacheState) : CacheState :=
  (invalidateSubjects pfx (mutationSubjects endpoint b) st).2

/-- What a `HTTPTransport.request` call produces: the outcome, the cache
store afterwards, and the number of HTTP attempts made. -/
structure ReqResult where
  outcome : Outcome
  cache : CacheState
  calls : ℕ
deriving DecidableEq

/-- Model of `HTTPTransport._handle_check_request`.  `cm` says whether
`_ensure_cache_initialized` produced a cache manager; `none` for `body`
covers both a missing and an empty (falsy) `json` dict.  On a
single-check cache hit the transport returns `{"allowed": cached}`
without any HTTP call; on a miss it calls the API and write-throughs
`result.get("allowed", False)` with the configured ttl (a non-dict
result raises inside the caching `try`, which is swallowed). -/
def handleCheckRequest (c : SDKConfig) (cm : Bool) (st : CacheState) (now : ℚ)
    (endpoint : String) (body : Option RequestBody) (script : ℕ → AttemptOut) : ReqResult :=
  match body with
  | none =>
    let d := doRequest c script
    ⟨d.outcome, st, d.calls⟩
  | some b =>
    if !cm then
      let d := doRequest c script
      ⟨d.outcome, st, d.calls⟩
    else if !(strContains endpoint "/permissions/check-many") then
      let g := getCheckResult c.cache_pfx st now b.subjects b.scope b.action
        b.tenant_id b.object_id
      match g.1 with
      | some cached => ⟨.ok (.obj [("allowed", .bool cached)]), g.2, 0⟩
      | none =>
        let d := doRequest c script
        match d.outcome with
        | .ok (.obj fs) =>
          ⟨.ok (.obj fs),
            setCheckResult c.cache_pfx g.2 now b.subjects b.scope b.action
              (jsonGetD fs "allowed" (.bool false)) b.tenant_id b.object_id
              (some (c.cache_ttl : ℚ)),
            d.calls⟩
        | o => ⟨o, g.2, d.calls⟩
    else
      let d := doRequest c script
      ⟨d.outcome, st, d.calls⟩

/-- Model of `HTTPTransport._handle_mutation_request`: call the API first; only
after a successful response, and only with a cache manager and a truthy
body, invalidate. -/
def handleMutationRequest (c : SDKConfig) (cm : Bool) (st : CacheState) (now : ℚ)
    (endpoint : String) (body : Option RequestBody) (script : ℕ → AttemptOut) : ReqResult :=
  let d := doRequest c script
  match d.outcome with
  | .ok j =>
    match body with
    | some b =>
      if cm then ⟨.ok j, invalidateCacheForMutation c.cache_pfx endpoint b st, d.calls⟩
      else ⟨.ok j, st, d.calls⟩
    | none => ⟨.ok j, st, d.calls⟩
  | o => ⟨o, st, d.calls⟩

/-- Model of `HTTPTransport.request`: route to the check handler, the mutation
handler, or pass through. -/
def transportRequest (c : SDKConfig) (cm : Bool) (st : CacheState) (now : ℚ)
    (method endpoint : String) (body : Option RequestBody)
    (script : ℕ → AttemptOut) : ReqResult :=
  if isCheckRequest method endpoint then
    handleCheckRequest c cm st now endpoint body script
  else if isGrantRequest method endpoint || isRevokeRequest method endpoint then
    handleMutationRequest c cm st now endpoint body script
  else
    let d := doRequest c script
    ⟨d.outcome, st, d.calls⟩

/-! ### Concrete fixtures used by the concrete evaluations below -/

/-- A configuration with the in-memory cache enabled. -/
def cfgMem : SDKConfig :=
  { base_url := "http://x", api_key := "k", cache_enabled := true, cache_type := "memory" }

/-- A concrete single-check cache key. -/
def keyAlice : String := buildCheckKey "perm_sdk" ["user:alice"] "docs" "read" none none

/-- A store caching `true` for the concrete single check. -/
def stAlice : CacheState := [(keyAlice, ⟨.bool true, none⟩)]

/-- A concrete check body matching `keyAlice`. -/
def bodyAlice : RequestBody := { subjects := ["user:alice"], scope := "docs", action := "read" }

/-- A script whose every attempt returns 200 with `allowed = false`. -/
def scriptFalse : ℕ → AttemptOut :=
  fun _ => .resp { status := 200, body := some (.obj [("allowed", .bool false)]) }

/-- A script whose every attempt returns 200 with an empty results
array (a check-many shaped response). -/
def scriptResults : ℕ → AttemptOut :=
  fun _ => .resp { status := 200, body := some (.obj [("results", .arr [])]) }

/-- A concrete one-element batch of checks. -/
def checksAlice : List CheckDict :=
  [{ subjects := ["user:alice"], scope := some "docs", action := some "read" }]

/-- A store caching a result list for `checksAlice` under the batch key
(`fun s => s` stands in for the hex-digest primitive). -/
def stBatch : CacheState :=
  [(buildCheckManyKey "perm_sdk" (hashChecks (fun s => s) checksAlice),
    ⟨.arr [.obj [("allowed", .bool true)]], none⟩)]

/-- A script whose every attempt returns 200 with an empty dict. -/
def scriptOk : ℕ → AttemptOut :=
  fun _ => .resp { status := 200, body := some (.obj []) }

/-- A cache-enabled configuration whose key prefix is `"p"`. -/
def cfgP : SDKConfig :=
  { base_url := "http://x", api_key := "k", cache_enabled := true, cache_type := "memory",
    cache_pfx := "p" }

/-- A store caching `true` for a check whose subject `u[a]` contains a
glob character class. -/
def stBracket : CacheState :=
  [(buildCheckKey "p" ["u[a]"] "s" "a" none none, ⟨.bool true, none⟩)]

/-! ## Theorems

First the general lemmas about the embedded primitives (string order,
sorting, glob matching), then one theorem per claim. -/

/-- Totality of the code-point lexicographic order. -/
theorem lexLe_total (a b : List Char) : lexLe a b = true ∨ lexLe b a = true := by
  induction a generalizing b with
  | nil => left; rfl
  | cons x xs ih =>
    cases b with
    | nil => right; rfl
    | cons y ys =>
      by_cases h1 : x.toNat < y.toNat
      · left; simp [lexLe, h1]
      · by_cases h2 : y.toNat < x.toNat
        · right; simp [lexLe, h2]
        · rcases ih ys with h | h
          · left; simp [lexLe, h1, h2, h]
          · right; simp [lexLe, h1, h2, h]

/-- Transitivity of the code-point lexicographic order. -/
theorem lexLe_trans (a b c : List Char) (hab : lexLe a b = true)
    (hbc : lexLe b c = true) : lexLe a c = true := by
  induction a generalizing b c with
  | nil => rfl
  | cons x xs ih =>
    cases b with
    | nil => simp [lexLe] at hab
    | cons y ys =>
      cases c with
      | nil => simp [lexLe] at hbc
      | cons z zs =>
        simp only [lexLe] at hab hbc ⊢
        split_ifs at hab hbc ⊢ <;>
          first
            | rfl
            | omega
            | exact ih ys zs hab hbc

/-- Characters with equal code points are equal. -/
theorem char_toNat_inj (a b : Char) (h : a.toNat = b.toNat) : a = b := by
  apply Char.eq_of_val_eq
  apply UInt32.eq_of_val_eq
  apply Fin.eq_of_val_eq
  exact h

/-- Antisymmetry of the code-point lexicographic order. -/
theorem lexLe_antisymm (a b : List Char) (hab : lexLe a b = true)
    (hba : lexLe b a = true) : a = b := by
  induction a generalizing b with
  | nil =>
    cases b with
    | nil => rfl
    | cons y ys => simp [lexLe] at hba
  | cons x xs ih =>
    cases b with
    | nil => simp [lexLe] at hab
    | cons y ys =>
      by_cases h1 : x.toNat < y.toNat
      · have h2 : ¬y.toNat < x.toNat := by omega
        simp [lexLe, h1, h2] at hba
      · by_cases h2 : y.toNat < x.toNat
        · simp [lexLe, h1, h2] at hab
        · have hxy : x = y := char_toNat_inj x y (by omega)
          simp only [lexLe, if_neg h1, if_neg h2] at hab hba
          rw [hxy, ih ys hab hba]

/-- Strings with equal character data are equal. -/
theorem string_data_eq (a b : String) (h : a.data = b.data) : a = b := by
  cases a
  cases b
  exact congrArg String.mk h

/-- Sorting by the Python string order is invariant under permutation
of the input (stable sort, total antisymmetric order). -/
theorem sortStrings_perm_eq (l₁ l₂ : List String) (h : l₁.Perm l₂) :
    sortStrings l₁ = sortStrings l₂ := by
  haveI : IsTotal String pyLe := ⟨fun a b => lexLe_total a.data b.data⟩
  haveI : IsTrans String pyLe :=
    ⟨fun a b c hab hbc => lexLe_trans a.data b.data c.data hab hbc⟩
  haveI : IsAntisymm String pyLe :=
    ⟨fun a b hab hba => string_data_eq a b (lexLe_antisymm a.data b.data hab hba)⟩
  exact List.eq_of_perm_of_sorted (r := pyLe)
    (((l₁.perm_insertionSort pyLe).trans h).trans (l₂.perm_insertionSort pyLe).symm)
    (l₁.sorted_insertionSort pyLe)
    (l₂.sorted_insertionSort pyLe)

/-- Claim C6: for every list of subjects, every permutation of it, and
any fixed scope, action, tenant id and object id,
`PermissionCacheManager._build_check_key` returns the identical
cache-key string for the list and for the permutation. -/
theorem build_check_key_order_independent (pfx scope action : String)
    (tenant_id object_id : Option String) (s₁ s₂ : List String) (h : s₁.Perm s₂) :
    buildCheckKey pfx s₁ scope action tenant_id object_id =
      buildCheckKey pfx s₂ scope action tenant_id object_id := by
  unfold buildCheckKey
  rw [sortStrings_perm_eq s₁ s₂ h]

/-- Witness for C6 at a concrete permutation. -/
theorem build_check_key_order_independent_witness :
    (["user:1", "role:2"] : List String).Perm ["role:2", "user:1"] ∧
      buildCheckKey "perm_sdk" ["user:1", "role:2"] "docs" "read" none none =
        buildCheckKey "perm_sdk" ["role:2", "user:1"] "docs" "read" none none :=
  ⟨by decide,
    build_check_key_order_independent "perm_sdk" "docs" "read" none none
      ["user:1", "role:2"] ["role:2", "user:1"] (by decide)⟩

/-- Normalization is invariant under reordering the subject list. -/
theorem normalizeCheck_reorder (a b : CheckDict) (h : checkReorder a b) :
    normalizeCheck a = normalizeCheck b := by
  obtain ⟨hs, h1, h2, h3, h4, h5⟩ := h
  unfold normalizeCheck
  rw [sortStrings_perm_eq _ _ hs, h1, h2, h3, h4, h5]

/-- The dump strings of the sorted normalized list depend only on the
multiset of normalized checks: the sort key is the dump string itself,
so permuting the input permutes equal dump strings into the same sorted
sequence. -/
theorem sortNorm_map_dump_eq (n₁ n₂ : List NormCheck) (h : n₁.Perm n₂) :
    (sortNorm n₁).map dumpNorm = (sortNorm n₂).map dumpNorm := by
  haveI : IsTotal NormCheck normLe :=
    ⟨fun a b => lexLe_total (dumpNorm a).data (dumpNorm b).data⟩
  haveI : IsTrans NormCheck normLe :=
    ⟨fun a b c hab hbc => lexLe_trans (dumpNorm a).data (dumpNorm b).data (dumpNorm c).data hab hbc⟩
  haveI : IsAntisymm String pyLe :=
    ⟨fun a b hab hba => string_data_eq a b (lexLe_antisymm a.data b.data hab hba)⟩
  have hsort : ∀ n : List NormCheck, ((sortNorm n).map dumpNorm).Sorted pyLe := by
    intro n
    exact List.Pairwise.map dumpNorm (fun a b hab => hab) (n.sorted_insertionSort normLe)
  have hperm : ((sortNorm n₁).map dumpNorm).Perm ((sortNorm n₂).map dumpNorm) :=
    (((n₁.perm_insertionSort normLe).map dumpNorm).trans (h.map dumpNorm)).trans
      ((n₂.perm_insertionSort normLe).map dumpNorm).symm
  exact List.eq_of_perm_of_sorted (r := pyLe) hperm (hsort n₁) (hsort n₂)

/-- Pointwise subject reordering leaves the normalized list unchanged. -/
theorem forall₂_reorder_map (l₁ l₂ : List CheckDict)
    (h : List.Forall₂ checkReorder l₁ l₂) :
    l₁.map normalizeCheck = l₂.map normalizeCheck := by
  induction h with
  | nil => rfl
  | cons hR _ ih =>
    simp only [List.map_cons, List.cons.injEq]
    exact ⟨normalizeCheck_reorder _ _ hR, ih⟩

/-- Claim C7: for every list of check-request dictionaries, any
reordering of the list (and any reordering of the subject list inside
each check) yields the same 16-hex-character digest from
`PermissionCacheManager._hash_checks` — for any choice of the external
SHA-256 hex-digest primitive — and hence the same batch cache key. -/
theorem hash_checks_order_independent (digest : String → String)
    (c₁ c₂ : List CheckDict)
    (h : ∃ mid, c₁.Perm mid ∧ List.Forall₂ checkReorder mid c₂) :
    hashChecks digest c₁ = hashChecks digest c₂ ∧
      ∀ pfx, buildCheckManyKey pfx (hashChecks digest c₁) =
        buildCheckManyKey pfx (hashChecks digest c₂) := by
  obtain ⟨mid, hperm, hpt⟩ := h
  have hmap : mid.map normalizeCheck = c₂.map normalizeCheck :=
    forall₂_reorder_map mid c₂ hpt
  have hperm2 : (c₁.map normalizeCheck).Perm (c₂.map normalizeCheck) := by
    rw [← hmap]
    exact hperm.map normalizeCheck
  have hcontent : hashContent c₁ = hashContent c₂ := by
    unfold hashContent
    rw [sortNorm_map_dump_eq _ _ hperm2]
  have hhash : hashChecks digest c₁ = hashChecks digest c₂ := by
    unfold hashChecks
    rw [hcontent]
  exact ⟨hhash, fun pfx => by unfold buildCheckManyKey; rw [hhash]⟩

/-- Witness for C7: a concrete batch, shuffled and with shuffled
subjects, hashed with a concrete stand-in digest. -/
theorem hash_checks_order_independent_witness :
    (∃ mid,
        ([⟨["b", "a"], some "docs", some "read", none, none, some "c1"⟩,
          ⟨["u:9"], some "pics", some "write", some "t", none, none⟩] :
            List CheckDict).Perm mid ∧
          List.Forall₂ checkReorder mid
            [⟨["u:9"], some "pics", some "write", some "t", none, none⟩,
              ⟨["a", "b"], some "docs", some "read", none, none, some "c1"⟩]) ∧
      hashChecks (fun s => s)
          [⟨["b", "a"], some "docs", some "read", none, none, some "c1"⟩,
            ⟨["u:9"], some "pics", some "write", some "t", none, none⟩] =
        hashChecks (fun s => s)
          [⟨["u:9"], some "pics", some "write", some "t", none, none⟩,
            ⟨["a", "b"], some "docs", some "read", none, none, some "c1"⟩] := by
  have h : ∃ mid,
      ([⟨["b", "a"], some "docs", some "read", none, none, some "c1"⟩,
        ⟨["u:9"], some "pics", some "write", some "t", none, none⟩] :
          List CheckDict).Perm mid ∧
        List.Forall₂ checkReorder mid
          [⟨["u:9"], some "pics", some "write", some "t", none, none⟩,
            ⟨["a", "b"], some "docs", some "read", none, none, some "c1"⟩] := by
    refine ⟨[⟨["u:9"], some "pics", some "write", some "t", none, none⟩,
      ⟨["b", "a"], some "docs", some "read", none, none, some "c1"⟩], by decide, ?_⟩
    refine List.Forall₂.cons ⟨by decide, rfl, rfl, rfl, rfl, rfl⟩ ?_
    exact List.Forall₂.cons ⟨by decide, rfl, rfl, rfl, rfl, rfl⟩ List.Forall₂.nil
  exact ⟨h, (hash_checks_order_independent (fun s => s) _ _ h).1⟩

set_option maxHeartbeats 2000000 in
/-- The post-strip validation returns its input unchanged and
guarantees a non-negative backoff and a multiplier of at least 1. -/
theorem validateAfterStrip_spec (d c' : SDKConfig)
    (h : validateAfterStrip d = some c') :
    c' = d ∧ 0 ≤ d.retry_backoff ∧ 1 ≤ d.retry_multiplier := by
  unfold validateAfterStrip at h
  split_ifs at h with h1 h2 h3 h4 h5 h6 h7 h8 h9 h10 <;>
    first
      | (injection h with h'
         subst h'
         exact ⟨rfl, not_lt.mp h4, not_lt.mp h5⟩)
      | injection h

/-- The retry-relevant fields survive validation, which guarantees a
non-negative backoff and a multiplier of at least 1. -/
theorem validateConfig_retry_fields (c c' : SDKConfig) (h : validateConfig c = some c') :
    c'.retry_backoff = c.retry_backoff ∧ c'.retry_multiplier = c.retry_multiplier ∧
      0 ≤ c'.retry_backoff ∧ 1 ≤ c'.retry_multiplier := by
  unfold validateConfig at h
  split_ifs at h
  obtain ⟨hceq, hb, hm⟩ := validateAfterStrip_spec _ _ h
  subst hceq
  exact ⟨rfl, rfl, hb, hm⟩

/-- Claim C9 (amended): for every configuration accepted by `SDKConfig`
validation, `_wait_for_retry`'s duration is the deterministic value
`retry_backoff * retry_multiplier ^ attempt` and is non-decreasing in
the attempt number; it is strictly increasing whenever
`retry_backoff > 0` and `retry_multiplier > 1`.  (Validation also
accepts `retry_multiplier = 1` and `retry_backoff = 0`, where the wait
is constant, so strict increase does not hold for every accepted
configuration.) -/
theorem wait_time_monotone (c c' : SDKConfig) (h : validateConfig c = some c') :
    (∀ a : ℕ, waitTime c' a = c'.retry_backoff * c'.retry_multiplier ^ a) ∧
      (∀ a b : ℕ, a ≤ b → waitTime c' a ≤ waitTime c' b) ∧
      (0 < c'.retry_backoff → 1 < c'.retry_multiplier →
        ∀ a b : ℕ, a < b → waitTime c' a < waitTime c' b) := by
  obtain ⟨hb, hm, hb0, hm1⟩ := validateConfig_retry_fields c c' h
  refine ⟨fun a => rfl, fun a b hab => ?_, fun hbp hmp a b hab => ?_⟩
  · unfold waitTime
    exact mul_le_mul_of_nonneg_left (pow_le_pow_right₀ hm1 hab) hb0
  · unfold waitTime
    exact mul_lt_mul_of_pos_left (pow_lt_pow_right₀ hmp hab) hbp

/-- Witness for C9's amended theorem at a concrete accepted
configuration (backoff 1, multiplier 2). -/
theorem wait_time_monotone_witness :
    validateConfig { base_url := "http://x", api_key := "k", retry_backoff := 1 } =
        some { base_url := "http://x", api_key := "k", retry_backoff := 1 } ∧
      waitTime { base_url := "http://x", api_key := "k", retry_backoff := 1 } 0 ≤
          waitTime { base_url := "http://x", api_key := "k", retry_backoff := 1 } 1 ∧
        waitTime { base_url := "http://x", api_key := "k", retry_backoff := 1 } 1 <
          waitTime { base_url := "http://x", api_key := "k", retry_backoff := 1 } 2 := by
  have h : validateConfig { base_url := "http://x", api_key := "k", retry_backoff := 1 } =
      some { base_url := "http://x", api_key := "k", retry_backoff := 1 } := by decide
  exact ⟨h, (wait_time_monotone _ _ h).2.1 0 1 (by decide),
    (wait_time_monotone _ _ h).2.2 (by decide) (by decide) 1 2 (by decide)⟩

/-- Claim C9 counterexample: validation accepts
`retry_multiplier = 1` (here with backoff 1), for which the wait
duration is constant in the attempt number — so the wait is not
strictly increasing for every configuration accepted by validation. -/
theorem wait_time_constant_at_multiplier_one :
    validateConfig
          { base_url := "http://x", api_key := "k", retry_backoff := 1, retry_multiplier := 1 } =
        some { base_url := "http://x", api_key := "k", retry_backoff := 1, retry_multiplier := 1 } ∧
      waitTime { base_url := "http://x", api_key := "k", retry_backoff := 1, retry_multiplier := 1 } 0 =
          waitTime { base_url := "http://x", api_key := "k", retry_backoff := 1, retry_multiplier := 1 } 1 ∧
        ¬(waitTime { base_url := "http://x", api_key := "k", retry_backoff := 1, retry_multiplier := 1 } 0 <
            waitTime { base_url := "http://x", api_key := "k", retry_backoff := 1, retry_multiplier := 1 } 1) := by
  refine ⟨by decide, by norm_num [waitTime], by norm_num [waitTime]⟩

/-- Every all-timeout run of the retry loop makes `remaining + 1`
attempts and ends in `TimeoutError` carrying the configured timeout. -/
theorem doRequestAux_all_timeout (c : SDKConfig) (script : ℕ → AttemptOut)
    (hs : ∀ i, script i = .timeout) :
    ∀ rem att, (doRequestAux c script att rem).outcome =
        .err (.timeoutError (c.timeout : ℚ)) ∧
      (doRequestAux c script att rem).calls = rem + 1 := by
  intro rem
  induction rem with
  | zero => intro att; simp [doRequestAux, hs att]
  | succ n ih =>
    intro att
    have h1 := (ih (att + 1)).1
    have h2 := (ih (att + 1)).2
    simp [doRequestAux, hs att, h1, h2]

/-- Claim C8: with `max_retries = 2`, a request whose every attempt
raises a transport-level timeout performs exactly 3 attempts in total
and then raises `TimeoutError` whose timeout field equals the configured
timeout value. -/
theorem retry_termination_on_timeout (c : SDKConfig) (script : ℕ → AttemptOut)
    (hmr : c.max_retries = 2) (hs : ∀ i, script i = .timeout) :
    (doRequest c script).outcome = .err (.timeoutError (c.timeout : ℚ)) ∧
      (doRequest c script).calls = 3 := by
  unfold doRequest
  rw [hmr]
  norm_num
  exact doRequestAux_all_timeout c script hs 2 0

/-- Witness for C8 at a concrete configuration and all-timeout script. -/
theorem retry_termination_on_timeout_witness :
    (doRequest { base_url := "http://x", api_key := "k", max_retries := 2 }
          fun _ => AttemptOut.timeout).outcome =
        .err (.timeoutError 30) ∧
      (doRequest { base_url := "http://x", api_key := "k", max_retries := 2 }
            fun _ => AttemptOut.timeout).calls = 3 :=
  retry_termination_on_timeout { base_url := "http://x", api_key := "k", max_retries := 2 }
    (fun _ => AttemptOut.timeout) rfl fun _ => rfl

/-- Claim C2 contradicted by the code: with `max_retries = 2` and the
default retry-status set containing 500, a request whose first attempt
returns HTTP 500 raises the mapped `ServerError` after exactly one
attempt, with no backoff wait — although attempts remain and the status
is in `retry_on_status`.  The `except httpx.HTTPStatusError` retry
branch of `_do_request` is unreachable: `httpx.Client.request` never
raises that exception (only `Response.raise_for_status` does), and
`_handle_response` raises SDK exceptions none of the `except` clauses
catch. -/
theorem retryable_status_raises_immediately :
    (500 : ℤ) ∈ SDKConfig.retry_on_status
        { base_url := "http://x", api_key := "k", max_retries := 2 } ∧
      SDKConfig.max_retries { base_url := "http://x", api_key := "k", max_retries := 2 } = 2 ∧
      doRequest { base_url := "http://x", api_key := "k", max_retries := 2 }
          (fun _ => .resp { status := 500 }) =
        ⟨.err (.server 500), 1, []⟩ := by
  refine ⟨by decide, rfl, by decide⟩

/-- Claim C4 contradicted by the code: `_handle_response` has no 409
branch, so every HTTP 409 response falls through to the final fallback
and raises `ServerError` (carrying status 409) — never `ConflictError`,
whatever the body, text, or headers. -/
theorem status_409_maps_to_server_error (body : Option Json) (text : String)
    (retry_after : Option ℤ) :
    handleResponse { status := 409, body := body, text := text, retry_after := retry_after } =
      some (.server 409) := by
  unfold handleResponse
  norm_num

/-- The async transport's loop is the sync transport's loop: the two
sources duplicate the code, and the two embeddings agree pointwise. -/
theorem asyncRequestAux_eq_doRequestAux (c : SDKConfig) (script : ℕ → AttemptOut) :
    ∀ rem att, asyncRequestAux c script att rem = doRequestAux c script att rem := by
  intro rem
  induction rem with
  | zero => intro att; rfl
  | succ n ih =>
    intro att
    cases hsc : script att <;> simp [asyncRequestAux, doRequestAux, hsc, ih (att + 1)]

/-- Model of `AsyncHTTPTransport.request` computes exactly `_do_request`. -/
theorem asyncRequest_eq_doRequest (c : SDKConfig) (script : ℕ → AttemptOut) :
    asyncRequest c script = doRequest c script := by
  unfold asyncRequest doRequest
  by_cases h0 : (c.max_retries + 1).toNat = 0
  · simp [h0]
  · simp [h0, asyncRequestAux_eq_doRequestAux]

/-- Claim C3 (amended): `AsyncHTTPTransport.request` implements exactly
the retry/backoff/error-mapping loop of the sync transport's
`_do_request` (the code is duplicated verbatim), and the two transports
are observationally equivalent precisely when no cache manager is
present — for every request the sync transport without a cache manager
returns the async transport's outcome, makes the same number of HTTP
attempts, and leaves the cache store untouched.  The async transport
itself performs no cache lookup, no write-through, and no
invalidation. -/
theorem async_sync_agree_without_cache (c : SDKConfig) (st : CacheState) (now : ℚ)
    (method endpoint : String) (body : Option RequestBody) (script : ℕ → AttemptOut) :
    asyncRequest c script = doRequest c script ∧
      transportRequest c false st now method endpoint body script =
        ⟨(asyncRequest c script).outcome, st, (asyncRequest c script).calls⟩ := by
  have he := asyncRequest_eq_doRequest c script
  refine ⟨he, ?_⟩
  rw [he]
  unfold transportRequest
  split_ifs with hc hm
  · cases body with
    | none => rfl
    | some b => simp [handleCheckRequest]
  · unfold handleMutationRequest
    cases hd : (doRequest c script).outcome <;> cases body <;> simp [hd]
  · rfl

/-- Claim C3 counterexample: with caching enabled and a single-check
result already cached, the sync transport serves `allowed = true` from
the cache with zero HTTP calls, while the async transport for the same
request performs one HTTP call and returns the server's
`allowed = false` — the two transports are not observationally
equivalent. -/
theorem async_sync_differ_with_cache :
    (transportRequest cfgMem true stAlice 0 "POST" "/api/v1/permissions/check"
          (some bodyAlice) scriptFalse).outcome =
        .ok (.obj [("allowed", .bool true)]) ∧
      (transportRequest cfgMem true stAlice 0 "POST" "/api/v1/permissions/check"
          (some bodyAlice) scriptFalse).calls = 0 ∧
      (asyncRequest cfgMem scriptFalse).outcome = .ok (.obj [("allowed", .bool false)]) ∧
      (asyncRequest cfgMem scriptFalse).calls = 1 := by
  refine ⟨by rfl, by rfl, by rfl, by rfl⟩

/-- Claim C10: when a single permission check is served from the cache,
`HTTPTransport.request` returns a dictionary containing exactly one key,
`"allowed"`, bound to the cached boolean, makes no HTTP call, and leaves
the store as the lookup left it. -/
theorem cache_hit_returns_allowed_only (c : SDKConfig) (st : CacheState) (now : ℚ)
    (endpoint : String) (b : RequestBody) (script : ℕ → AttemptOut) (cached : Bool)
    (hc : isCheckRequest "POST" endpoint = true)
    (hnm : strContains endpoint "/permissions/check-many" = false)
    (hhit : (getCheckResult c.cache_pfx st now b.subjects b.scope b.action
        b.tenant_id b.object_id).1 = some cached) :
    transportRequest c true st now "POST" endpoint (some b) script =
      ⟨.ok (.obj [("allowed", .bool cached)]),
        (getCheckResult c.cache_pfx st now b.subjects b.scope b.action
          b.tenant_id b.object_id).2,
        0⟩ := by
  unfold transportRequest
  rw [if_pos hc]
  unfold handleCheckRequest
  simp [hnm, hhit]

/-- Witness for C10: a concrete cached check served as exactly
`{"allowed": true}` with zero HTTP calls. -/
theorem cache_hit_returns_allowed_only_witness :
    isCheckRequest "POST" "/api/v1/permissions/check" = true ∧
      strContains "/api/v1/permissions/check" "/permissions/check-many" = false ∧
      (getCheckResult (SDKConfig.cache_pfx cfgMem) stAlice 0
          ["user:alice"] "docs" "read" none none).1 = some true ∧
      transportRequest cfgMem true stAlice 0 "POST" "/api/v1/permissions/check"
          (some bodyAlice) (fun _ => .timeout) =
        ⟨.ok (.obj [("allowed", .bool true)]),
          (getCheckResult (SDKConfig.cache_pfx cfgMem) stAlice 0
            ["user:alice"] "docs" "read" none none).2,
          0⟩ := by
  refine ⟨by decide, by decide, by decide, ?_⟩
  exact cache_hit_returns_allowed_only cfgMem stAlice 0 "/api/v1/permissions/check"
    bodyAlice (fun _ => .timeout) true (by decide) (by decide) (by decide)

/-- Claim C5 (amended): a `POST /permissions/check-many` request
bypasses the SDK cache entirely: `HTTPTransport.request` performs the
HTTP call unconditionally, never consults the batch cache, never stores
the batch result, and leaves the cache state untouched — the
`get_check_many_result` / `set_check_many_result` helpers on
`PermissionCacheManager` are unused by the transport, so repeating an
identical batch always makes another HTTP call. -/
theorem check_many_bypasses_cache (c : SDKConfig) (st : CacheState) (now : ℚ)
    (endpoint : String) (b : RequestBody) (script : ℕ → AttemptOut)
    (hc : isCheckRequest "POST" endpoint = true)
    (hm : strContains endpoint "/permissions/check-many" = true) :
    transportRequest c true st now "POST" endpoint (some b) script =
      ⟨(doRequest c script).outcome, st, (doRequest c script).calls⟩ := by
  unfold transportRequest
  rw [if_pos hc]
  unfold handleCheckRequest
  simp [hm]

/-- Witness for C5's amended theorem at a concrete batch request. -/
theorem check_many_bypasses_cache_witness :
    isCheckRequest "POST" "/api/v1/permissions/check-many" = true ∧
      strContains "/api/v1/permissions/check-many" "/permissions/check-many" = true ∧
      transportRequest cfgMem true [] 0 "POST" "/api/v1/permissions/check-many"
          (some {}) scriptResults =
        ⟨(doRequest cfgMem scriptResults).outcome, [],
          (doRequest cfgMem scriptResults).calls⟩ := by
  refine ⟨by decide, by decide, ?_⟩
  exact check_many_bypasses_cache cfgMem [] 0 "/api/v1/permissions/check-many" {}
    scriptResults (by decide) (by decide)

/-- Claim C5 counterexample: even with the batch result already present
in the cache under the batch key (so `get_check_many_result` would
return it), the transport still performs an HTTP call for the identical
batch, returns the server's response, and leaves the store unchanged —
the batch cache is never consulted nor written.  (`fun s => s` stands
in for the injective hex-digest primitive.) -/
theorem check_many_not_served_from_cache :
    (getCheckManyResult (fun s => s) "perm_sdk" stBatch 0 checksAlice).1 =
        some (.arr [.obj [("allowed", .bool true)]]) ∧
      transportRequest cfgMem true stBatch 0 "POST" "/api/v1/permissions/check-many"
          (some bodyAlice) scriptResults =
        ⟨.ok (.obj [("results", .arr [])]), stBatch, 1⟩ := by
  refine ⟨by rfl, by rfl⟩

/-! ### Glob lemmas for the invalidation pattern (claim C1)

The pattern `"<prefix>:check:*<subject>*"` matches every key that
extends `"<prefix>:check:"` with any text containing the subject —
provided neither prefix nor subject contains `[`, the character that
opens a glob class. -/

/-- A leading `*` absorbs any prefix of the text. -/
theorem matchTok_star_absorb (p : List GlobTok) (m u : List Char)
    (h : matchTok p u = true) : matchTok (.star :: p) (m ++ u) = true := by
  simp only [matchTok, List.any_eq_true]
  exact ⟨u, (List.mem_tails u (m ++ u)).mpr ⟨m, rfl⟩, h⟩

/-- A trailing `*` matches any remaining text. -/
theorem matchTok_star_end (u : List Char) : matchTok [.star] u = true := by
  simp only [matchTok, List.any_eq_true]
  exact ⟨[], (List.mem_tails [] u).mpr List.nil_suffix, rfl⟩

/-- Any character sequence matches its own compiled tokens (characters
map to themselves; `?` matches one character, `*` absorbs at least its
own character). -/
theorem matchTok_self (s : List Char) (p : List GlobTok) (u : List Char)
    (h : matchTok p u = true) : matchTok (s.map charTok ++ p) (s ++ u) = true := by
  induction s with
  | nil => simpa using h
  | cons c cs ih =>
    by_cases hst : c = '*'
    · subst hst
      simp only [List.map_cons, List.cons_append, charTok, if_pos]
      exact matchTok_star_absorb (cs.map charTok ++ p) ['*'] (cs ++ u) ih
    · by_cases hq : c = '?'
      · subst hq
        simp only [List.map_cons, List.cons_append, charTok]
        norm_num
        simpa [matchTok] using ih
      · simp only [List.map_cons, List.cons_append, charTok, if_neg hst, if_neg hq]
        simpa [matchTok] using ih

/-- Unfolding `globTokens` over a cons cell: the fuel is always
sufficient, and the recursive calls in the class-free branches are again
at canonical fuel. -/
theorem globTokens_cons (c : Char) (r : List Char) :
    globTokens (c :: r) =
      if c = '*' then .star :: globTokens r
      else if c = '?' then .any :: globTokens r
      else if c = '[' then
        match scanClass r with
        | some (neg, content, rest) => .cls neg (parseItems content) :: globTokensF r.length rest.1
        | none => .lit '[' :: globTokens r
      else .lit c :: globTokens r := rfl

/-- Tokenisation splits over a class-free first segment. -/
theorem globTokens_append (s t : List Char) (hs : '[' ∉ s) :
    globTokens (s ++ t) = s.map charTok ++ globTokens t := by
  induction s with
  | nil => rfl
  | cons c cs ih =>
    have hc : c ≠ '[' := fun h => hs (by simp [h])
    have hcs : '[' ∉ cs := fun h => hs (List.mem_cons_of_mem _ h)
    rw [List.cons_append, globTokens_cons]
    by_cases h1 : c = '*'
    · subst h1; simp [charTok, ih hcs]
    · by_cases h2 : c = '?'
      · subst h2; simp [charTok, ih hcs]
      · simp [charTok, h1, h2, hc, ih hcs]

/-- Concatenation of strings concatenates their character data. -/
theorem string_append_data (a b : String) : (a ++ b).data = a.data ++ b.data := by
  cases a
  cases b
  rfl

/-- A member of a list is a contiguous substring of its
`"|"`-join. -/
theorem mem_joinSep_data (x : String) (l : List String) (h : x ∈ l) :
    ∃ A B, (joinSep "|" l).data = A ++ x.data ++ B := by
  induction l with
  | nil => cases h
  | cons y ys ih =>
    cases ys with
    | nil =>
      rcases List.mem_singleton.mp h with rfl
      exact ⟨[], [], by simp [joinSep]⟩
    | cons z zs =>
      rcases List.mem_cons.mp h with rfl | hmem
      · refine ⟨[], ("|").data ++ (joinSep "|" (z :: zs)).data, ?_⟩
        simp [joinSep, string_append_data]
      · obtain ⟨A, B, hAB⟩ := ih hmem
        refine ⟨y.data ++ ("|").data ++ A, B, ?_⟩
        simp [joinSep, string_append_data, hAB]

/-- The check key built for a subject list containing `x` decomposes as
`prefix ++ ":check:" ++ … x …`. -/
theorem buildCheckKey_decomp (pfx x scope action : String) (t o : Option String)
    (subjects : List String) (hx : x ∈ subjects) :
    ∃ A B, (buildCheckKey pfx subjects scope action t o).data =
      pfx.data ++ (":check:").data ++ A ++ x.data ++ B := by
  have hxs : x ∈ sortStrings subjects :=
    ((subjects.perm_insertionSort pyLe).mem_iff).mpr hx
  obtain ⟨A, B, hAB⟩ := mem_joinSep_data x (sortStrings subjects) hxs
  refine ⟨A, B ++ (":").data ++
    (joinSep ":" [scope, action, orNull t, orNull o]).data, ?_⟩
  show (joinSep ":" [pfx, "check", joinSep "|" (sortStrings subjects), scope, action,
    orNull t, orNull o]).data = _
  simp [joinSep, string_append_data, hAB]

/-- The subject's invalidation glob matches every key of that shape
when neither the prefix nor the subject contains `[`. -/
theorem pattern_matches_key (pfx x key : String)
    (hpfx : '[' ∉ pfx.data) (hx : '[' ∉ x.data)
    (hkey : ∃ A B, key.data = pfx.data ++ (":check:").data ++ A ++ x.data ++ B) :
    fnmatchB key (buildSubjectPattern pfx x) = true := by
  obtain ⟨A, B, hk⟩ := hkey
  unfold fnmatchB buildSubjectPattern
  have hpat : (pfx ++ ":check:*" ++ x ++ "*").data =
      (pfx.data ++ (":check:*").data) ++ (x.data ++ ("*").data) := by
    simp [string_append_data]
  rw [hpat]
  have hs1 : '[' ∉ pfx.data ++ (":check:*").data := by
    intro hmem
    rcases List.mem_append.mp hmem with hmem | hmem
    · exact hpfx hmem
    · exact absurd hmem (by decide)
  rw [globTokens_append _ _ hs1, globTokens_append _ _ hx]
  have hstar : globTokens ("*").data = [GlobTok.star] := by decide
  rw [hstar]
  have hmap : (pfx.data ++ (":check:*").data).map charTok =
      (pfx.data ++ (":check:").data).map charTok ++ [GlobTok.star] := by
    have : (":check:*").data = (":check:").data ++ ['*'] := by decide
    simp [this, charTok]
  rw [hmap]
  have hkey2 : key.data =
      (pfx.data ++ (":check:").data) ++ (A ++ (x.data ++ B)) := by
    simp [hk, List.append_assoc]
  rw [hkey2]
  have hgoal :
      matchTok ((pfx.data ++ (":check:").data).map charTok ++
          (GlobTok.star :: (x.data.map charTok ++ [GlobTok.star])))
        ((pfx.data ++ (":check:").data) ++ (A ++ (x.data ++ B))) = true := by
    apply matchTok_self
    apply matchTok_star_absorb _ A
    exact matchTok_self x.data [GlobTok.star] B (matchTok_star_end B)
  have hassoc :
      (pfx.data ++ (":check:").data).map charTok ++ [GlobTok.star] ++
          (x.data.map charTok ++ [GlobTok.star]) =
        (pfx.data ++ (":check:").data).map charTok ++
          (GlobTok.star :: (x.data.map charTok ++ [GlobTok.star])) := by
    simp [List.append_assoc]
  rw [hassoc]
  exact hgoal

/-! ### Invalidation removes every matching entry (claim C1) -/

/-- The second component of the counting fold does not depend on the
count accumulator. -/
theorem invalidateSubjects_count_free (pfx : String) (subs : List String) :
    ∀ (n : ℕ) (st : CacheState),
      (subs.foldl
          (fun acc s =>
            let r := invalidateSubject pfx s acc.2
            (acc.1 + r.1, r.2))
          (n, st)).2 =
        (invalidateSubjects pfx subs st).2 := by
  induction subs with
  | nil => intro n st; rfl
  | cons s₀ rest ih =>
    intro n st
    unfold invalidateSubjects
    simp only [List.foldl_cons]
    exact (ih _ _).trans (ih _ _).symm

/-- Invalidating a batch processes the head subject first. -/
theorem invalidateSubjects_cons (pfx s₀ : String) (rest : List String) (st : CacheState) :
    (invalidateSubjects pfx (s₀ :: rest) st).2 =
      (invalidateSubjects pfx rest ((invalidateSubject pfx s₀ st).2)).2 := by
  unfold invalidateSubjects
  simp only [List.foldl_cons]
  exact invalidateSubjects_count_free pfx rest _ _

/-- Entries surviving one subject's invalidation were present before
and do not match that subject's pattern. -/
theorem invalidateSubject_mem (pfx s : String) (st : CacheState) (e : String × CacheEntry)
    (he : e ∈ (invalidateSubject pfx s st).2) :
    e ∈ st ∧ fnmatchB e.1 (buildSubjectPattern pfx s) = false := by
  unfold invalidateSubject cacheDeletePattern at he
  have h := List.mem_filter.mp he
  exact ⟨h.1, by simpa using h.2⟩

/-- Batch invalidation only removes entries. -/
theorem invalidateSubjects_subset (pfx : String) (subs : List String) :
    ∀ st e, e ∈ (invalidateSubjects pfx subs st).2 → e ∈ st := by
  induction subs with
  | nil => intro st e he; exact he
  | cons s₀ rest ih =>
    intro st e he
    rw [invalidateSubjects_cons] at he
    exact (invalidateSubject_mem pfx s₀ st e (ih _ e he)).1

/-- After invalidating a batch containing `x`, no surviving entry
matches `x`'s pattern. -/
theorem invalidateSubjects_clears (pfx x : String) :
    ∀ (subs : List String), x ∈ subs →
      ∀ st e, e ∈ (invalidateSubjects pfx subs st).2 →
        fnmatchB e.1 (buildSubjectPattern pfx x) = false := by
  intro subs
  induction subs with
  | nil => intro hx; cases hx
  | cons s₀ rest ih =>
    intro hx st e he
    rw [invalidateSubjects_cons] at he
    rcases List.mem_cons.mp hx with rfl | hmem
    · exact (invalidateSubject_mem pfx x st e (invalidateSubjects_subset pfx rest _ e he)).2
    · exact ih hmem _ e he

/-- A check lookup misses on any store whose entries all fail `x`'s
pattern, when `x` is among the looked-up subjects. -/
theorem getCheckResult_none_of_clean (pfx : String) (st : CacheState) (now : ℚ)
    (subjects : List String) (scope action : String) (t o : Option String) (x : String)
    (hx : x ∈ subjects) (hxc : '[' ∉ x.data) (hpc : '[' ∉ pfx.data)
    (hclean : ∀ e ∈ st, fnmatchB e.1 (buildSubjectPattern pfx x) = false) :
    (getCheckResult pfx st now subjects scope action t o).1 = none := by
  have hmatch : fnmatchB (buildCheckKey pfx subjects scope action t o)
      (buildSubjectPattern pfx x) = true :=
    pattern_matches_key pfx x _ hpc hxc (buildCheckKey_decomp pfx x scope action t o subjects hx)
  have hfind : st.find?
      (fun p => p.1 = buildCheckKey pfx subjects scope action t o) = none := by
    cases hf : st.find? (fun p => p.1 = buildCheckKey pfx subjects scope action t o) with
    | none => rfl
    | some e =>
      have hmem := List.mem_of_find?_eq_some hf
      have hpe0 := List.find?_some hf
      have hpe : e.1 = buildCheckKey pfx subjects scope action t o := by simpa using hpe0
      have hcl := hclean e hmem
      rw [hpe, hmatch] at hcl
      cases hcl
  unfold getCheckResult cacheGet
  dsimp only
  rw [hfind]

/-- A subject named in the body, nonempty, is among the subjects the
invalidation code extracts. -/
theorem mem_mutationSubjects (endpoint : String) (b : RequestBody) (x : String)
    (hend : endpoint = "/api/v1/permissions/grant" ∨
      endpoint = "/api/v1/permissions/grant-many" ∨
      endpoint = "/api/v1/permissions/revoke" ∨
      endpoint = "/api/v1/permissions/revoke-many")
    (hn : bodyNamesSubject endpoint b x) (hxe : x ≠ "") :
    x ∈ mutationSubjects endpoint b := by
  rcases hend with he | he | he | he <;> subst he
  · unfold bodyNamesSubject at hn
    rw [if_neg (by decide), if_neg (by decide)] at hn
    unfold mutationSubjects
    rw [if_neg (by decide), if_neg (by decide), if_pos (by decide), hn]
    simp [hxe]
  · unfold bodyNamesSubject at hn
    rw [if_pos (by decide)] at hn
    unfold mutationSubjects
    rw [if_pos (by decide)]
    exact List.mem_dedup.mpr (List.mem_filter.mpr ⟨hn, by simp [hxe]⟩)
  · unfold bodyNamesSubject at hn
    rw [if_neg (by decide), if_neg (by decide)] at hn
    unfold mutationSubjects
    rw [if_neg (by decide), if_neg (by decide), if_pos (by decide), hn]
    simp [hxe]
  · unfold bodyNamesSubject at hn
    rw [if_neg (by decide), if_pos (by decide)] at hn
    unfold mutationSubjects
    rw [if_neg (by decide), if_pos (by decide)]
    exact List.mem_dedup.mpr (List.mem_filter.mpr ⟨hn, by simp [hxe]⟩)

/-- Claim C1 (amended): after a successful grant, grant-many, revoke,
or revoke-many request through `HTTPTransport.request` that names a
nonempty subject `x` — where neither `x` nor the configured cache
prefix contains `[`, the character opening a glob class — the transport
invalidates every cached check entry whose subject list includes `x`
before returning, so any subsequent
`PermissionCacheManager.get_check_result` for a check involving `x`
misses.  (A subject containing a bracketed class such as `u[a]` defeats
the pattern and is the counterexample to the unrestricted claim; an
empty subject is falsy in Python and skips invalidation.) -/
theorem mutation_invalidates_named_subject
    (c : SDKConfig) (st : CacheState) (now : ℚ) (endpoint : String) (b : RequestBody)
    (script : ℕ → AttemptOut) (x : String)
    (hend : endpoint = "/api/v1/permissions/grant" ∨
      endpoint = "/api/v1/permissions/grant-many" ∨
      endpoint = "/api/v1/permissions/revoke" ∨
      endpoint = "/api/v1/permissions/revoke-many")
    (hnames : bodyNamesSubject endpoint b x) (hxe : x ≠ "")
    (hxc : '[' ∉ x.data) (hpc : '[' ∉ (SDKConfig.cache_pfx c).data)
    (hok : ∃ j, (transportRequest c true st now "POST" endpoint (some b) script).outcome = .ok j) :
    ∀ (subjects : List String) (scope action : String)
      (tenant_id object_id : Option String) (now₂ : ℚ),
      x ∈ subjects →
      (getCheckResult (SDKConfig.cache_pfx c)
        (transportRequest c true st now "POST" endpoint (some b) script).cache
        now₂ subjects scope action tenant_id object_id).1 = none := by
  intro subjects scope action tenant_id object_id now₂ hxsub
  have hxm : x ∈ mutationSubjects endpoint b :=
    mem_mutationSubjects endpoint b x hend hnames hxe
  have hroute : transportRequest c true st now "POST" endpoint (some b) script =
      handleMutationRequest c true st now endpoint (some b) script := by
    rcases hend with he | he | he | he <;> subst he <;>
      (unfold transportRequest; rw [if_neg (by decide), if_pos (by decide)])
  rw [hroute] at hok ⊢
  obtain ⟨j, hj⟩ := hok
  unfold handleMutationRequest at hj ⊢
  cases hd : (doRequest c script).outcome with
  | ok j' =>
    simp only [hd]
    unfold invalidateCacheForMutation
    exact getCheckResult_none_of_clean _ _ now₂ subjects scope action tenant_id object_id x
      hxsub hxc hpc (invalidateSubjects_clears _ x _ hxm st)
  | err e => simp [hd] at hj
  | pyError => simp [hd] at hj

/-- Witness for C1's amended theorem: a concrete successful grant for
`user:alice` leaves the cached check for `user:alice` unreachable. -/
theorem mutation_invalidates_named_subject_witness :
    (∃ j, (transportRequest cfgMem true stAlice 0 "POST" "/api/v1/permissions/grant"
        (some { subject := some "user:alice" }) scriptOk).outcome = .ok j) ∧
      (getCheckResult (SDKConfig.cache_pfx cfgMem)
        (transportRequest cfgMem true stAlice 0 "POST" "/api/v1/permissions/grant"
          (some { subject := some "user:alice" }) scriptOk).cache
        0 ["user:alice"] "docs" "read" none none).1 = none := by
  have hok : ∃ j, (transportRequest cfgMem true stAlice 0 "POST" "/api/v1/permissions/grant"
      (some { subject := some "user:alice" }) scriptOk).outcome = .ok j :=
    ⟨.obj [], by rfl⟩
  refine ⟨hok, ?_⟩
  exact mutation_invalidates_named_subject cfgMem stAlice 0 "/api/v1/permissions/grant"
    { subject := some "user:alice" } scriptOk "user:alice" (Or.inl rfl)
    (by unfold bodyNamesSubject
        rw [if_neg (by decide), if_neg (by decide)])
    (by decide) (by decide) (by decide) hok
    ["user:alice"] "docs" "read" none none 0 (by decide)

/-- Claim C1 counterexample: for the subject `u[a]`, whose name
contains a glob character class, a successful grant leaves the cached
check entry for `u[a]` untouched (the pattern `p:check:*u[a]*` fails to
match the key), and the next `get_check_result` still returns the stale
`true` — so the unrestricted claim is false. -/
theorem bracket_subject_not_invalidated :
    transportRequest cfgP true stBracket 0 "POST" "/api/v1/permissions/grant"
        (some { subject := some "u[a]" }) scriptOk =
      ⟨.ok (.obj []), stBracket, 1⟩ ∧
      (getCheckResult "p" stBracket 0 ["u[a]"] "s" "a" none none).1 = some true := by
  refine ⟨by rfl, by rfl⟩

end PermSDK
